import Mathlib

/-!
Verification of the Dunk (Kentucky Rook) rules engine.

This file shallowly embeds the game-rule logic of the repository in Lean and
proves properties of it.  Every definition mirrors a concrete JS function of
the source; the file and line references in the doc comments point into the
repository.

Conventions used throughout the embedding:
* JS card objects `{suit, value, points}` become the `Card` structure; a
  card's `value` is a JS number 1..14 for ordinary cards and the JS string
  "D" for the Dunk (wild) card, modelled by the `CardValue` type.
* The only non-integer JS number the engine compares is the Dunk's effective
  trick value 10.5, so effective trick values are stored DOUBLED (rank v
  becomes 2*v and 10.5 becomes 21); doubling preserves every comparison the
  source performs, and the source's `=== 1` test becomes `= 2`.
* JS functions that `throw` become `Except`; they validate first, exactly as
  the source does, so no state is produced (or mutated) on the error path.
-/

namespace Dunk

/-- Card suits/colors (`SUITS` in the card-logic module); `dunk` is the wild
card's marker suit. -/
inductive Suit where
  | orange
  | yellow
  | blue
  | green
  | dunk
deriving DecidableEq, Repr

/-- A card's face value: a JS number 1..14 for ordinary cards, or the JS
string "D" carried by the Dunk card. -/
inductive CardValue where
  | num : Nat → CardValue
  | D : CardValue
deriving DecidableEq, Repr

/-- The `CARD_VALUES` table of the card-logic module: point values by face
value (1 ↦ 15, 5 ↦ 5, 10 ↦ 10, 14 ↦ 10, "D" ↦ 20, otherwise 0). -/
def CARD_VALUES : CardValue → Nat
  | .num 1 => 15
  | .num 5 => 5
  | .num 10 => 10
  | .num 14 => 10
  | .D => 20
  | _ => 0

/-- A card.  The JS objects also carry derived bookkeeping fields
(`id`, `isDunk`, an initially-false `isPowerSuit`) that no verified logic
reads; they are omitted. -/
structure Card where
  suit : Suit
  value : CardValue
  points : Nat
deriving DecidableEq, Repr

/-- JS `createCard(suit, value)`: points are looked up in `CARD_VALUES`. -/
def createCard (suit : Suit) (value : CardValue) : Card :=
  { suit := suit, value := value, points := CARD_VALUES value }

/-- JS `STANDARD_VALUES`: the fourteen numeric ranks. -/
def STANDARD_VALUES : List Nat := [1, 2, 3, 4, 5, 6, 7, 8, 9, 10, 11, 12, 13, 14]

/-- JS `createDeck()`: all fourteen ranks for each of the four ordinary suits,
in suit order orange, yellow, blue, green, followed by the single Dunk. -/
def createDeck : List Card :=
  ([Suit.orange, Suit.yellow, Suit.blue, Suit.green].flatMap fun s =>
    STANDARD_VALUES.map fun v => createCard s (.num v))
  ++ [createCard Suit.dunk .D]

/-- JS `deck.pop()`: remove and return the LAST element. -/
def popCard (deck : List Card) : Option Card × List Card :=
  match deck.getLast? with
  | none => (none, deck)
  | some c => (some c, deck.dropLast)

/-- One round-robin pass of `dealCards`: each hand, in seat order, pops one
card off the end of the remaining deck (skipping when the deck is empty). -/
def dealOneRound (hands : List (List Card)) (deck : List Card) :
    List (List Card) × List Card :=
  hands.foldl
    (fun acc h =>
      match popCard acc.2 with
      | (some c, d) => (acc.1 ++ [h ++ [c]], d)
      | (none, _) => (acc.1 ++ [h], acc.2))
    ([], deck)

/-- Iterate `dealOneRound` once per card each player receives. -/
def dealRounds : Nat → List (List Card) × List Card → List (List Card) × List Card
  | 0, st => st
  | n + 1, (hands, deck) => dealRounds n (dealOneRound hands deck)

/-- The kitty loop of `dealCards`: pop five cards (when available). -/
def takeKitty : Nat → List Card × List Card → List Card × List Card
  | 0, st => st
  | n + 1, (kitty, deck) =>
    match popCard deck with
    | (some c, d) => takeKitty n (kitty ++ [c], d)
    | (none, _) => takeKitty n (kitty, deck)

/-- JS `dealCards(deck, numPlayers = 4, cardsPerPlayer = 13)`: returns
(hands, kitty, remainingDeck). -/
def dealCards (deck : List Card) (numPlayers : Nat := 4) (cardsPerPlayer : Nat := 13) :
    List (List Card) × List Card × List Card :=
  let hands0 : List (List Card) := List.replicate numPlayers []
  let dealt := dealRounds cardsPerPlayer (hands0, deck)
  let kittied := takeKitty 5 ([], dealt.2)
  (dealt.1, kittied.1, kittied.2)

/-- The fixed 20-point bonus for winning the final trick
(`finalTrickBonus` in `handleFinalTrickRewards`, gameplay.js line 526). -/
def finalTrickBonus : Nat := 20

/-- One play inside a trick: the JS objects `{card, player}` pushed onto
`roundState.playedCards`. -/
structure Play where
  player : String
  card : Card
deriving DecidableEq, Repr

/-- The effective suit used by `determineTrickWinner` (gameplay.js lines
40-47): the Dunk automatically becomes the power suit. -/
def effectiveSuit (powerSuit : Suit) (c : Card) : Suit :=
  if c.suit = Suit.dunk then powerSuit else c.suit

/-- Numeric reading of a card value.  The Dunk's value is the string "D",
which trick resolution never reads numerically (its effective value is
hard-coded); the 0 returned for it here is never used on well-formed cards. -/
def CardValue.toNat : CardValue → Nat
  | .num n => n
  | .D => 0

/-- The effective value used by `determineTrickWinner`, doubled so that the
Dunk's hard-coded 10.5 becomes the integer 21 (rank v becomes 2*v).  The
source's special test `effectiveValue === 1` becomes `= 2` here. -/
def effectiveValue2 (c : Card) : Nat :=
  if c.suit = Suit.dunk then 21 else 2 * c.value.toNat

/-- One comparison step of `determineTrickWinner` (gameplay.js lines 49-84):
does the card under examination displace the current winning card?  A value
of 1 (doubled: 2) beats everything; otherwise larger values win; power-suit
cards beat everything else; non-power cards compete only when both follow
the led suit. -/
def beats (powerSuit ledSuit : Suit) (winning challenger : Card) : Bool :=
  let wS := effectiveSuit powerSuit winning
  let wV := effectiveValue2 winning
  let cS := effectiveSuit powerSuit challenger
  let cV := effectiveValue2 challenger
  if wS = powerSuit then
    if cS = powerSuit then
      (decide (cV = 2) && decide (wV ≠ 2)) ||
      (decide (cV ≠ 2) && decide (wV ≠ 2) && decide (wV < cV))
    else false
  else
    if cS = powerSuit then true
    else if cS = ledSuit ∧ wS = ledSuit then
      (decide (cV = 2) && decide (wV ≠ 2)) ||
      (decide (cV ≠ 2) && decide (wV ≠ 2) && decide (wV < cV))
    else false

/-- One iteration of the `forEach` in `determineTrickWinner`: keep the
current (winningCard, winningPlayer) unless the examined play beats it. -/
def trickStep (powerSuit ledSuit : Suit) (w q : Play) : Play :=
  if beats powerSuit ledSuit w.card q.card then q else w

/-- The running (winningCard, winningPlayer) accumulator of
`determineTrickWinner`: the first play initializes it, later plays displace
it exactly when `beats` says so. -/
def trickWinningPlay (playedCards : List Play) (powerSuit ledSuit : Suit) : Option Play :=
  match playedCards with
  | [] => none
  | p :: rest => some (rest.foldl (trickStep powerSuit ledSuit) p)

/-- JS `determineTrickWinner(playedCards, powerSuit, ledSuit)` (gameplay.js
lines 32-88): the name of the winning player (`none` for the empty trick,
where JS returns null). -/
def determineTrickWinner (playedCards : List Play) (powerSuit ledSuit : Suit) :
    Option String :=
  (trickWinningPlay playedCards powerSuit ledSuit).map Play.player

/-- The led-suit test both play validators use on a held card: the card's
suit equals the led suit, or it is the Dunk and the power suit equals the
led suit. -/
def matchesLedSuit (powerSuit ledSuit : Suit) (c : Card) : Bool :=
  decide (c.suit = ledSuit) || (decide (c.suit = Suit.dunk) && decide (powerSuit = ledSuit))

/-- JS `getValidCards(hand, playedCards, powerSuit)` (AI module, logic bundle
lines 936-963): legal plays.  Empty trick: any card.  Otherwise the led suit
is the first card's suit, EXCEPT that a led Dunk declares the power suit;
cards matching the led suit are the only legal plays when at least one is
held, else any card. -/
def getValidCards (hand : List Card) (playedCards : List Play) (powerSuit : Suit) :
    List Card :=
  match playedCards with
  | [] => hand
  | p0 :: _ =>
    let ledSuit := if p0.card.suit = Suit.dunk then powerSuit else p0.card.suit
    let cardsOfLedSuit := hand.filter (matchesLedSuit powerSuit ledSuit)
    if 0 < cardsOfLedSuit.length then cardsOfLedSuit else hand

/-- JS `isCardPlayValid(cardData, gameState)` (gameplay.js lines 184-211).  The
JS function reads `roundState.playedCards`, `playerHand` and
`roundState.powerSuit` from the game state; they are explicit parameters
here.  NOTE (faithful to the source): the led suit is the first card's
LITERAL suit; a led Dunk is not remapped to the power suit. -/
def isCardPlayValid (cardData : Card) (playedCards : List Play)
    (playerHand : List Card) (powerSuit : Suit) : Bool :=
  match playedCards with
  | [] => true
  | p0 :: _ =>
    let ledSuit := p0.card.suit
    let cardsOfLedSuit := playerHand.filter (matchesLedSuit powerSuit ledSuit)
    if 0 < cardsOfLedSuit.length then matchesLedSuit powerSuit ledSuit cardData
    else true

/-- The auction state created by `startBiddingRound` (logic bundle lines
225-248) and threaded through `makeBid`/`passBid`.  `bids` and `passes` are
JS arrays grown by `push`; `currentBid` is initialized but never updated by
the bidding functions. -/
structure BiddingState where
  currentBid : Nat
  currentPlayerIndex : Nat
  playerOrder : List String
  bids : List (String × Nat)
  passes : List String
  highestBidder : Option String
  highestBid : Nat
  isComplete : Bool
  winner : Option String
  winningBid : Nat
deriving DecidableEq, Repr

/-- The fixed seat rotation (setup.js `PLAYERS`, in position order). -/
def PLAYER_ORDER : List String := ["Patricia", "Alex", "Jordan", "You"]

/-- JS `startBiddingRound(roundNumber)`: the first bidder rotates with the
round number (round numbers start at 1). -/
def startBiddingRound (roundNumber : Nat) : BiddingState :=
  { currentBid := 0
    currentPlayerIndex := (roundNumber - 1) % 4
    playerOrder := PLAYER_ORDER
    bids := []
    passes := []
    highestBidder := none
    highestBid := 0
    isComplete := false
    winner := none
    winningBid := 0 }

/-- JS `isValidBid(newBid, currentHighestBid)` (logic bundle lines 284-301):
must exceed the current highest bid, be divisible by 5, and lie in
[70, 200]. -/
def isValidBid (newBid currentHighestBid : Nat) : Bool :=
  if newBid ≤ currentHighestBid then false
  else if newBid % 5 ≠ 0 then false
  else if newBid < 70 ∨ 200 < newBid then false
  else true

/-- The successful branch of `makeBid` (logic bundle lines 310-339): record
the bid, update highest bid/bidder, complete the auction immediately on a
200 bid, advance the turn index circularly. -/
def applyBid (s : BiddingState) (playerName : String) (bidAmount : Nat) : BiddingState :=
  let s1 := { s with bids := s.bids ++ [(playerName, bidAmount)],
                     highestBid := bidAmount,
                     highestBidder := some playerName }
  let s2 :=
    if bidAmount = 200 then
      { s1 with isComplete := true, winner := some playerName, winningBid := bidAmount }
    else s1
  { s2 with currentPlayerIndex := (s2.currentPlayerIndex + 1) % 4 }

/-- The error `makeBid` throws for an invalid bid. -/
inductive BidError where
  | INVALID_BID
deriving DecidableEq, Repr

/-- JS `makeBid(biddingState, playerName, bidAmount)`: validates FIRST and
throws synchronously (so nothing of the caller's state is produced or
touched on the error path), otherwise returns the updated state. -/
def makeBid (s : BiddingState) (playerName : String) (bidAmount : Nat) :
    Except BidError BiddingState :=
  if isValidBid bidAmount s.highestBid then .ok (applyBid s playerName bidAmount)
  else .error .INVALID_BID

/-- JS `passBid(biddingState, playerName)` (logic bundle lines 347-364): record
the pass; once the passes array holds 3 or more entries the auction
completes with the current highest bidder as winner; advance the turn
index. -/
def passBid (s : BiddingState) (playerName : String) : BiddingState :=
  let s1 := { s with passes := s.passes ++ [playerName] }
  let s2 :=
    if 3 ≤ s1.passes.length then
      { s1 with isComplete := true, winner := s1.highestBidder, winningBid := s1.highestBid }
    else s1
  { s2 with currentPlayerIndex := (s2.currentPlayerIndex + 1) % 4 }

/-- JS `getCurrentBidder(biddingState)` (logic bundle lines 402-404): plain
array indexing `playerOrder[currentPlayerIndex]`; it does NOT skip seats
that already passed (the skipping helper `getNextBidder` is never called by
the driver). -/
def getCurrentBidder (s : BiddingState) : Option String :=
  s.playerOrder.get? s.currentPlayerIndex

/-- Bidding states the game driver can actually produce:
`initializeBiddingPhase` starts a round, then, while the auction is not
complete, `processNextBid` lets exactly the seat returned by
`getCurrentBidder` either make a (valid) bid or pass. -/
inductive Reachable : BiddingState → Prop where
  | start (roundNumber : Nat) : Reachable (startBiddingRound roundNumber)
  | bid {s : BiddingState} {p : String} {a : Nat} :
      Reachable s → s.isComplete = false → getCurrentBidder s = some p →
      isValidBid a s.highestBid = true → Reachable (applyBid s p a)
  | pass {s : BiddingState} {p : String} :
      Reachable s → s.isComplete = false → getCurrentBidder s = some p →
      Reachable (passBid s p)

/-- Team 1 is Alex + You, team 2 is Patricia + Jordan (setup.js `PLAYERS`
and `TEAMS`); `calculateEndOfRoundScores` tests the bid winner's name
against the two team-1 seats. -/
def isTeam1 (playerName : String) : Bool :=
  playerName == "Alex" || playerName == "You"

/-- The score-computing core of `calculateEndOfRoundScores` (gameplay.js
lines 1015-1097).  Inputs are the fields it reads from the round state
(`bidWinner`, `currentBid`, the two teams' earned points); the result is
(team1FinalScore, team2FinalScore), the deltas added to the running match
totals. -/
def calculateEndOfRoundScores (bidWinner : String) (currentBid : Nat)
    (team1EarnedPoints team2EarnedPoints : Nat) : Int × Int :=
  let biddingTeamEarnedPoints : Nat :=
    if isTeam1 bidWinner then team1EarnedPoints else team2EarnedPoints
  let nonBiddingTeamEarnedPoints : Nat :=
    if isTeam1 bidWinner then team2EarnedPoints else team1EarnedPoints
  let biddingTeamFinalScore : Int :=
    if currentBid ≤ biddingTeamEarnedPoints then (biddingTeamEarnedPoints : Int)
    else -(currentBid : Int)
  let nonBiddingTeamFinalScore : Int := (nonBiddingTeamEarnedPoints : Int)
  if isTeam1 bidWinner then (biddingTeamFinalScore, nonBiddingTeamFinalScore)
  else (nonBiddingTeamFinalScore, biddingTeamFinalScore)

/-- The two teams. -/
inductive Team where
  | team1
  | team2
deriving DecidableEq, Repr

/-- JS `GAME_CONSTANTS.WINNING_SCORE` (setup.js line 22). -/
def WINNING_SCORE : Int := 500

/-- The fields of a `roundHistory` record that `checkForGameEnd` reads: the
two teams' final (delta) scores of the round just settled. -/
structure RoundRecord where
  team1Final : Int
  team2Final : Int
deriving DecidableEq, Repr

/-- The winner-detection core of `checkForGameEnd` (gameplay.js lines
1102-1140): `none` while neither team has reached 500; when both have, the
higher total wins and a tie goes to the team with the higher final score in
the most recent round (team 2 when even those are equal). -/
def checkForGameEnd (team1Score team2Score : Int) (lastRound : RoundRecord) :
    Option Team :=
  if WINNING_SCORE ≤ team1Score ∨ WINNING_SCORE ≤ team2Score then
    if WINNING_SCORE ≤ team1Score ∧ WINNING_SCORE ≤ team2Score then
      if team2Score < team1Score then some .team1
      else if team1Score < team2Score then some .team2
      else if lastRound.team2Final < lastRound.team1Final then some .team1
      else some .team2
    else if WINNING_SCORE ≤ team1Score then some .team1
    else some .team2
  else none

/-- JS `CARD_RANKS` of the AI module: a JS array of STRINGS (higher index =
better card). -/
def CARD_RANKS : List String := ["2", "3", "4", "5", "6", "7", "8", "9", "10", "11", "12", "13", "14", "1", "D"]

/-- JS strict equality (`===`) between a card's `value` and a string: deck
cards carry numbers 1..14, and a JS number is never strictly equal to a
string; only the Dunk's value, the string "D", can match. -/
def valueStrictEqStr : CardValue → String → Bool
  | .D, s => s == "D"
  | .num _, _ => false

/-- JS `CARD_RANKS.indexOf(card.value)`: −1 for every numeric deck value
(number vs string), 14 for the Dunk's "D". -/
def cardRankIndex (v : CardValue) : Int :=
  match CARD_RANKS.findIdx? (valueStrictEqStr v) with
  | some i => (i : Int)
  | none => -1

/-- JS `getCurrentWinner(playedCards, powerSuit)` (AI module, logic bundle
lines 896-933): the heuristic opponent's prediction of the play currently
holding the trick.  Ranks are looked up with `CARD_RANKS.indexOf`. -/
def getCurrentWinner (playedCards : List Play) (powerSuit : Suit) : Option Play :=
  match playedCards with
  | [] => none
  | p0 :: rest =>
    let leadSuit := if p0.card.suit = Suit.dunk then powerSuit else p0.card.suit
    some (rest.foldl
      (fun winner current =>
        let currentValue := cardRankIndex current.card.value
        let winnerValue := cardRankIndex winner.card.value
        let currentIsPowerSuit := current.card.suit = powerSuit ∨ current.card.suit = Suit.dunk
        let winnerIsPowerSuit := winner.card.suit = powerSuit ∨ winner.card.suit = Suit.dunk
        if currentIsPowerSuit ∧ ¬winnerIsPowerSuit then current
        else if ¬currentIsPowerSuit ∧ winnerIsPowerSuit then winner
        else if currentIsPowerSuit ∧ winnerIsPowerSuit then
          (if winnerValue < currentValue then current else winner)
        else if current.card.suit = leadSuit ∧ winner.card.suit = leadSuit then
          (if winnerValue < currentValue then current else winner)
        else if current.card.suit = leadSuit ∧ winner.card.suit ≠ leadSuit then current
        else winner)
      p0)

/-- The error `handleHumanKitty` throws. -/
inductive KittyError where
  | INVALID_KITTY_SELECTION
deriving DecidableEq, Repr

/-- Does some selected card match this card by (suit, value)?  This is the
`selectedCards.some(...)` test inside `handleHumanKitty`. -/
def selectionMatches (selectedCards : List Card) (card : Card) : Bool :=
  selectedCards.any fun selected =>
    decide (selected.suit = card.suit) && decide (selected.value = card.value)

/-- JS `handleHumanKitty(playerHand, kitty, selectedCards, chosenPowerSuit)`
(logic bundle lines 494-516).  The ONLY validation is that exactly 5 cards
were selected; the new hand is every combined card whose (suit, value)
matches no selected card, and the new kitty is the selection itself. -/
def handleHumanKitty (playerHand kitty selectedCards : List Card)
    (chosenPowerSuit : Suit) :
    Except KittyError (List Card × List Card × Suit) :=
  if selectedCards.length ≠ 5 then .error .INVALID_KITTY_SELECTION
  else
    let combinedCards := playerHand ++ kitty
    let newHand := combinedCards.filter fun card => !(selectionMatches selectedCards card)
    .ok (newHand, selectedCards, chosenPowerSuit)

/-- The sort key of `manageKitty`: +100 for power-suit or Dunk cards, plus
the `CARD_RANKS` index of the value (−1 for every numeric deck value). -/
def kittySortKey (powerSuit : Suit) (c : Card) : Int :=
  (if c.suit = powerSuit ∨ c.suit = Suit.dunk then 100 else 0) + cardRankIndex c.value

/-- Insertion into a list sorted by descending `kittySortKey`. -/
def insertByKeyDesc (powerSuit : Suit) (c : Card) : List Card → List Card
  | [] => [c]
  | d :: ds =>
    if kittySortKey powerSuit d < kittySortKey powerSuit c then c :: d :: ds
    else d :: insertByKeyDesc powerSuit c ds

/-- JS `allCards.sort((a, b) => bKey - aKey)`: a permutation of the input
ordered by descending key (modelled as an insertion sort). -/
def sortByKeyDesc (powerSuit : Suit) : List Card → List Card
  | [] => []
  | c :: cs => insertByKeyDesc powerSuit c (sortByKeyDesc powerSuit cs)

/-- JS `manageKitty(hand, kitty, powerSuit)` (AI module, logic bundle lines
973-999): sort the 18 combined cards by descending key, keep the best 13,
return the rest to the kitty. -/
def manageKitty (hand kitty : List Card) (powerSuit : Suit) :
    List Card × List Card :=
  let allCards := hand ++ kitty
  let sortedCards := sortByKeyDesc powerSuit allCards
  (sortedCards.take 13, sortedCards.drop 13)

/-! ### Proof theory for trick resolution -/

/-- Well-formed cards: exactly the shapes `createDeck` produces — the Dunk
carries the value "D" and nothing else does, and numeric ranks lie in
1..14. -/
def wfCard (c : Card) : Bool :=
  (decide (c.suit = Suit.dunk) == decide (c.value = CardValue.D)) &&
  (decide (c.value = CardValue.D) ||
    (decide (1 ≤ c.value.toNat) && decide (c.value.toNat ≤ 14)))

lemma wfCard_iff {c : Card} (h : wfCard c = true) :
    (c.suit = Suit.dunk ↔ c.value = CardValue.D) ∧
      (c.value = CardValue.D ∨ (1 ≤ c.value.toNat ∧ c.value.toNat ≤ 14)) := by
  unfold wfCard at h
  simp only [Bool.and_eq_true, Bool.or_eq_true, beq_iff_eq, decide_eq_true_eq,
    decide_eq_decide] at h
  exact h

lemma wfCard_value_num {c : Card} (h : wfCard c = true) (hnd : c.suit ≠ Suit.dunk) :
    ∃ n, c.value = .num n ∧ 1 ≤ n ∧ n ≤ 14 := by
  obtain ⟨hiff, hb⟩ := wfCard_iff h
  rcases hv : c.value with n | _
  · refine ⟨n, rfl, ?_⟩
    rcases hb with hD | hB
    · rw [hv] at hD; cases hD
    · rw [hv] at hB; exact hB
  · exact absurd (hiff.mpr hv) hnd

lemma effectiveValue2_bounds {c : Card} (h : wfCard c = true) :
    effectiveValue2 c = 21 ∨ (2 ≤ effectiveValue2 c ∧ effectiveValue2 c ≤ 28) := by
  by_cases hd : c.suit = Suit.dunk
  · left; simp [effectiveValue2, hd]
  · right
    obtain ⟨n, hv, h1, h14⟩ := wfCard_value_num h hd
    simp only [effectiveValue2, if_neg hd, hv, CardValue.toNat]
    omega

/-- The doubled effective rank with the special-cased 1 (doubled: 2) sent to
the top value 30. -/
def effRank2 (c : Card) : Nat :=
  if effectiveValue2 c = 2 then 30 else effectiveValue2 c

lemma effRank2_le_30 {c : Card} (h : wfCard c = true) : effRank2 c ≤ 30 := by
  have := effectiveValue2_bounds h
  unfold effRank2
  split <;> omega

/-- Strength of a card inside a trick: effective power-suit cards above
effective led-suit cards above everything else, ties broken by effective
rank. -/
def trickScore (powerSuit ledSuit : Suit) (c : Card) : Nat :=
  if effectiveSuit powerSuit c = powerSuit then 2000 + effRank2 c
  else if effectiveSuit powerSuit c = ledSuit then 1000 + effRank2 c
  else 0

lemma trickScore_of_power {pS lS : Suit} {c : Card} (h : effectiveSuit pS c = pS) :
    trickScore pS lS c = 2000 + effRank2 c := by
  simp [trickScore, h]

lemma trickScore_of_led {pS lS : Suit} {c : Card} (h1 : effectiveSuit pS c ≠ pS)
    (h2 : effectiveSuit pS c = lS) : trickScore pS lS c = 1000 + effRank2 c := by
  unfold trickScore
  rw [if_neg h1, if_pos h2]

lemma trickScore_lt_2000_of_not_power {pS lS : Suit} {c : Card} (h : wfCard c = true)
    (hne : effectiveSuit pS c ≠ pS) : trickScore pS lS c < 2000 := by
  have := effRank2_le_30 h
  unfold trickScore
  rw [if_neg hne]
  split <;> omega

lemma effSuit_of_score_ge_2000 {pS lS : Suit} {c : Card} (h : wfCard c = true)
    (hs : 2000 ≤ trickScore pS lS c) : effectiveSuit pS c = pS := by
  by_contra hne
  exact absurd hs (not_le_of_lt (trickScore_lt_2000_of_not_power h hne))

lemma effSuit_of_score_ge_1000 {pS lS : Suit} {c : Card}
    (hs : 1000 ≤ trickScore pS lS c) :
    effectiveSuit pS c = pS ∨ effectiveSuit pS c = lS := by
  unfold trickScore at hs
  split at hs
  · left; assumption
  · split at hs
    · right; assumption
    · omega

/-- The shared value-comparison block of `determineTrickWinner` decides
exactly "strictly larger effective rank", for effective values of the
shapes the deck produces (21 for the Dunk, 2·rank otherwise). -/
lemma rankCmp_iff {wV cV : Nat} (hwB : wV = 21 ∨ (2 ≤ wV ∧ wV ≤ 28))
    (hcB : cV = 21 ∨ (2 ≤ cV ∧ cV ≤ 28)) :
    (((decide (cV = 2) && decide (wV ≠ 2)) ||
        (decide (cV ≠ 2) && decide (wV ≠ 2) && decide (wV < cV))) = true) ↔
      (if wV = 2 then 30 else wV) < (if cV = 2 then 30 else cV) := by
  simp only [Bool.or_eq_true, Bool.and_eq_true, decide_eq_true_eq]
  split_ifs <;> omega

lemma beats_iff_trickScore {pS lS : Suit} {w c : Card} (hw : wfCard w = true)
    (hc : wfCard c = true) (hwin : 1000 ≤ trickScore pS lS w) :
    beats pS lS w c = true ↔ trickScore pS lS w < trickScore pS lS c := by
  have hwB := effectiveValue2_bounds hw
  have hcB := effectiveValue2_bounds hc
  have hw30 := effRank2_le_30 hw
  have hc30 := effRank2_le_30 hc
  by_cases hwp : effectiveSuit pS w = pS
  · rw [trickScore_of_power hwp]
    by_cases hcs : effectiveSuit pS c = pS
    · rw [trickScore_of_power hcs]
      simp only [beats]
      rw [if_pos hwp, if_pos hcs, rankCmp_iff hwB hcB]
      unfold effRank2
      split_ifs <;> omega
    · have hlt := @trickScore_lt_2000_of_not_power pS lS c hc hcs
      simp only [beats]
      rw [if_pos hwp, if_neg hcs]
      simp only [Bool.false_eq_true, false_iff]
      omega
  · have hwl : effectiveSuit pS w = lS := (effSuit_of_score_ge_1000 hwin).resolve_left hwp
    rw [trickScore_of_led hwp hwl]
    by_cases hcs : effectiveSuit pS c = pS
    · rw [trickScore_of_power hcs]
      simp only [beats]
      rw [if_neg hwp, if_pos hcs]
      simp only [true_iff]
      omega
    · by_cases hcl : effectiveSuit pS c = lS
      · rw [trickScore_of_led hcs hcl]
        simp only [beats]
        rw [if_neg hwp, if_neg hcs, if_pos (And.intro hcl hwl), rankCmp_iff hwB hcB]
        unfold effRank2
        split_ifs <;> omega
      · have hz : trickScore pS lS c = 0 := by
          unfold trickScore
          rw [if_neg hcs, if_neg hcl]
        rw [hz]
        simp only [beats]
        rw [if_neg hwp, if_neg hcs, if_neg (fun hand : _ ∧ _ => hcl hand.1)]
        simp only [Bool.false_eq_true, false_iff]
        omega

/-- The `forEach` fold of `determineTrickWinner` returns a play of the trick
whose `trickScore` dominates every examined play (and at least the
accumulator's). -/
lemma trickFold_spec (pS lS : Suit) :
    ∀ (l : List Play) (acc : Play), wfCard acc.card = true →
      (∀ q ∈ l, wfCard q.card = true) → 1000 ≤ trickScore pS lS acc.card →
      (l.foldl (trickStep pS lS) acc = acc ∨ l.foldl (trickStep pS lS) acc ∈ l) ∧
        trickScore pS lS acc.card ≤ trickScore pS lS (l.foldl (trickStep pS lS) acc).card ∧
        ∀ q ∈ l, trickScore pS lS q.card ≤ trickScore pS lS (l.foldl (trickStep pS lS) acc).card := by
  intro l
  induction l with
  | nil =>
    intro acc _ _ _
    exact ⟨Or.inl rfl, le_refl _, by simp⟩
  | cons q0 rest ih =>
    intro acc hacc hl hsc
    have hq0 : wfCard q0.card = true := hl q0 (by simp)
    have hrest : ∀ q ∈ rest, wfCard q.card = true := fun q hq => hl q (by simp [hq])
    rw [List.foldl_cons]
    by_cases hb : beats pS lS acc.card q0.card = true
    · have hlt : trickScore pS lS acc.card < trickScore pS lS q0.card :=
        (beats_iff_trickScore hacc hq0 hsc).mp hb
      have hstep : trickStep pS lS acc q0 = q0 := by simp [trickStep, hb]
      rw [hstep]
      obtain ⟨hmem, hge, hall⟩ := ih q0 hq0 hrest (le_trans hsc hlt.le)
      refine ⟨?_, le_trans hlt.le hge, ?_⟩
      · rcases hmem with h | h
        · exact Or.inr (by simp [h])
        · exact Or.inr (by simp [h])
      · intro q hq
        rcases List.mem_cons.mp hq with h | h
        · exact h ▸ hge
        · exact hall q h
    · have hnlt : ¬ trickScore pS lS acc.card < trickScore pS lS q0.card := fun hlt =>
        hb ((beats_iff_trickScore hacc hq0 hsc).mpr hlt)
      have hstep : trickStep pS lS acc q0 = acc := by simp [trickStep, hb]
      rw [hstep]
      obtain ⟨hmem, hge, hall⟩ := ih acc hacc hrest hsc
      refine ⟨?_, hge, ?_⟩
      · rcases hmem with h | h
        · exact Or.inl h
        · exact Or.inr (by simp [h])
      · intro q hq
        rcases List.mem_cons.mp hq with h | h
        · exact h ▸ le_trans (not_lt.mp hnlt) hge
        · exact hall q h

lemma effectiveSuit_of_ne_dunk {pS : Suit} {c : Card} (h : c.suit ≠ Suit.dunk) :
    effectiveSuit pS c = c.suit := if_neg h

/-- The rank order the claims state: 1 highest (sent to 15), then 14 down
to 2 at face value. -/
def rookRank (c : Card) : Nat :=
  if c.value = CardValue.num 1 then 15 else c.value.toNat

lemma effRank2_eq_two_mul_rookRank {c : Card} (h : wfCard c = true)
    (hnd : c.suit ≠ Suit.dunk) : effRank2 c = 2 * rookRank c := by
  obtain ⟨n, hv, h1, h14⟩ := wfCard_value_num h hnd
  simp only [effRank2, effectiveValue2, if_neg hnd, hv, CardValue.toNat, rookRank]
  by_cases hn1 : n = 1
  · simp [hn1]
  · rw [if_neg (by omega), if_neg (by simp [hn1])]

/-! ### Claim C1 -/

/-- Claim C1: for every complete trick (plays in order, the led suit being
the first card's suit) of ordinary (non-wild) deck cards and declared power
suit, `determineTrickWinner` returns a seat whose card is of the power suit
or the led suit; when a power-suit card was played the winner holds a
power-suit card of maximal rank (rank order: 1 highest, then 14 down to 2,
captured by `rookRank`); when none was played the winner holds a led-suit
card of maximal rank.  In particular the example trick of the claim —
power-suit 1 and 2, led-suit 14, off-suit 1 — is won by the power-suit 1
(see the witness). -/
theorem determineTrickWinner_spec (plays : List Play) (powerSuit ledSuit : Suit)
    (p0 : Play) (rest : List Play)
    (hp : plays = p0 :: rest)
    (hlen : plays.length = 4)
    (hlead : p0.card.suit = ledSuit)
    (hwf : ∀ q ∈ plays, wfCard q.card = true)
    (hnd : ∀ q ∈ plays, q.card.suit ≠ Suit.dunk) :
    ∃ w, w ∈ plays ∧ determineTrickWinner plays powerSuit ledSuit = some w.player ∧
      (w.card.suit = powerSuit ∨ w.card.suit = ledSuit) ∧
      ((∃ q ∈ plays, q.card.suit = powerSuit) →
        w.card.suit = powerSuit ∧
          ∀ q ∈ plays, q.card.suit = powerSuit → rookRank q.card ≤ rookRank w.card) ∧
      ((∀ q ∈ plays, q.card.suit ≠ powerSuit) →
        w.card.suit = ledSuit ∧
          ∀ q ∈ plays, q.card.suit = ledSuit → rookRank q.card ≤ rookRank w.card) := by
  subst hp
  have hwf0 : wfCard p0.card = true := hwf p0 (by simp)
  have hnd0 : p0.card.suit ≠ Suit.dunk := hnd p0 (by simp)
  have heff0 : effectiveSuit powerSuit p0.card = p0.card.suit := effectiveSuit_of_ne_dunk hnd0
  have hsc0 : 1000 ≤ trickScore powerSuit ledSuit p0.card := by
    by_cases hpp : p0.card.suit = powerSuit
    · rw [trickScore_of_power (by rw [heff0]; exact hpp)]
      omega
    · rw [trickScore_of_led (by rw [heff0]; exact hpp) (by rw [heff0]; exact hlead)]
      omega
  obtain ⟨hmem, hge, hall⟩ := trickFold_spec powerSuit ledSuit rest p0 hwf0
    (fun q hq => hwf q (by simp [hq])) hsc0
  set w := rest.foldl (trickStep powerSuit ledSuit) p0 with hw
  have hwmem : w ∈ p0 :: rest := by
    rcases hmem with h | h
    · rw [h]; exact List.mem_cons_self p0 rest
    · exact List.mem_cons_of_mem _ h
  have hwwf : wfCard w.card = true := hwf w hwmem
  have hwnd : w.card.suit ≠ Suit.dunk := hnd w hwmem
  have hweff : effectiveSuit powerSuit w.card = w.card.suit := effectiveSuit_of_ne_dunk hwnd
  have hallscore : ∀ q ∈ p0 :: rest,
      trickScore powerSuit ledSuit q.card ≤ trickScore powerSuit ledSuit w.card := by
    intro q hq
    rcases List.mem_cons.mp hq with h | h
    · exact h ▸ hge
    · exact hall q h
  have hwsc : 1000 ≤ trickScore powerSuit ledSuit w.card := le_trans hsc0 hge
  refine ⟨w, hwmem, rfl, ?_, ?_, ?_⟩
  · rcases effSuit_of_score_ge_1000 hwsc with h | h
    · left; rw [← hweff]; exact h
    · right; rw [← hweff]; exact h
  · rintro ⟨q, hq, hqp⟩
    have hqnd := hnd q hq
    have hqeff : effectiveSuit powerSuit q.card = powerSuit := by
      rw [effectiveSuit_of_ne_dunk hqnd]; exact hqp
    have hq2000 : 2000 ≤ trickScore powerSuit ledSuit q.card := by
      rw [trickScore_of_power hqeff]; omega
    have hw2000 : 2000 ≤ trickScore powerSuit ledSuit w.card :=
      le_trans hq2000 (hallscore q hq)
    have hwpow : effectiveSuit powerSuit w.card = powerSuit :=
      effSuit_of_score_ge_2000 hwwf hw2000
    refine ⟨by rw [← hweff]; exact hwpow, ?_⟩
    intro q' hq' hq'p
    have hq'wf := hwf q' hq'
    have hq'nd := hnd q' hq'
    have hq'eff : effectiveSuit powerSuit q'.card = powerSuit := by
      rw [effectiveSuit_of_ne_dunk hq'nd]; exact hq'p
    have h1 := hallscore q' hq'
    rw [trickScore_of_power hq'eff, trickScore_of_power hwpow] at h1
    have h2 : effRank2 q'.card ≤ effRank2 w.card := by omega
    rw [effRank2_eq_two_mul_rookRank hq'wf hq'nd,
      effRank2_eq_two_mul_rookRank hwwf hwnd] at h2
    omega
  · intro hnone
    have hwnp : effectiveSuit powerSuit w.card ≠ powerSuit := by
      rw [hweff]; exact hnone w hwmem
    have hwled : effectiveSuit powerSuit w.card = ledSuit :=
      (effSuit_of_score_ge_1000 hwsc).resolve_left hwnp
    refine ⟨by rw [← hweff]; exact hwled, ?_⟩
    intro q hq hql
    have hqwf := hwf q hq
    have hqnd := hnd q hq
    have hqnp : effectiveSuit powerSuit q.card ≠ powerSuit := by
      rw [effectiveSuit_of_ne_dunk hqnd]; exact hnone q hq
    have hqled : effectiveSuit powerSuit q.card = ledSuit := by
      rw [effectiveSuit_of_ne_dunk hqnd]; exact hql
    have h1 := hallscore q hq
    rw [trickScore_of_led hqnp hqled, trickScore_of_led hwnp hwled] at h1
    have h2 : effRank2 q.card ≤ effRank2 w.card := by omega
    rw [effRank2_eq_two_mul_rookRank hqwf hqnd,
      effRank2_eq_two_mul_rookRank hwwf hwnd] at h2
    omega

/-- The example trick of claim C1: led-suit (yellow) 14 leads, then
power-suit (orange) 1, power-suit 2, and off-suit (green) 1. -/
def c1Trick : List Play :=
  [⟨"Cara", createCard .yellow (.num 14)⟩,
   ⟨"Ann", createCard .orange (.num 1)⟩,
   ⟨"Bob", createCard .orange (.num 2)⟩,
   ⟨"Dan", createCard .green (.num 1)⟩]

/-- Witness for C1: on the claim's own example trick the theorem applies and
the power-suit 1, played second, wins. -/
theorem determineTrickWinner_spec_witness :
    determineTrickWinner c1Trick Suit.orange Suit.yellow = some "Ann" ∧
    (∃ w, w ∈ c1Trick ∧
      determineTrickWinner c1Trick Suit.orange Suit.yellow = some w.player ∧
      (w.card.suit = Suit.orange ∨ w.card.suit = Suit.yellow) ∧
      ((∃ q ∈ c1Trick, q.card.suit = Suit.orange) →
        w.card.suit = Suit.orange ∧
          ∀ q ∈ c1Trick, q.card.suit = Suit.orange → rookRank q.card ≤ rookRank w.card) ∧
      ((∀ q ∈ c1Trick, q.card.suit ≠ Suit.orange) →
        w.card.suit = Suit.yellow ∧
          ∀ q ∈ c1Trick, q.card.suit = Suit.yellow → rookRank q.card ≤ rookRank w.card)) :=
  ⟨by decide,
   determineTrickWinner_spec c1Trick Suit.orange Suit.yellow
     ⟨"Cara", createCard .yellow (.num 14)⟩
     [⟨"Ann", createCard .orange (.num 1)⟩,
      ⟨"Bob", createCard .orange (.num 2)⟩,
      ⟨"Dan", createCard .green (.num 1)⟩]
     rfl (by decide) rfl (by decide) (by decide)⟩

/-! ### Claim C9 -/

/-- Claim C9 (amended): in trick resolution the wild card always counts as a
card of the power suit, so in every trick containing it no card outside the
power suit can win; but its fixed value 10.5 places it above only the power
suit's ordinary ranks 2..10 — power-suit 11..14 and 1 beat it. -/
theorem dunk_power_suit_spec (plays : List Play) (powerSuit ledSuit : Suit)
    (p0 : Play) (rest : List Play)
    (hp : plays = p0 :: rest)
    (hlead : ledSuit = p0.card.suit)
    (hwf : ∀ q ∈ plays, wfCard q.card = true)
    (hdunk : ∃ q ∈ plays, q.card.suit = Suit.dunk)
    (hps : powerSuit ≠ Suit.dunk) :
    (∃ w, w ∈ plays ∧ determineTrickWinner plays powerSuit ledSuit = some w.player ∧
      effectiveSuit powerSuit w.card = powerSuit) ∧
    (∀ n, 1 ≤ n → n ≤ 14 →
      (beats powerSuit ledSuit (createCard Suit.dunk .D)
          (createCard powerSuit (.num n)) = true ↔ (n = 1 ∨ 11 ≤ n)) ∧
      (beats powerSuit ledSuit (createCard powerSuit (.num n))
          (createCard Suit.dunk .D) = true ↔ (n ≠ 1 ∧ n ≤ 10))) := by
  constructor
  · subst hp
    have hwf0 : wfCard p0.card = true := hwf p0 (by simp)
    have hsc0 : 1000 ≤ trickScore powerSuit ledSuit p0.card := by
      by_cases hd0 : p0.card.suit = Suit.dunk
      · have : effectiveSuit powerSuit p0.card = powerSuit := by
          unfold effectiveSuit; rw [if_pos hd0]
        rw [trickScore_of_power this]; omega
      · have heff0 : effectiveSuit powerSuit p0.card = p0.card.suit :=
          effectiveSuit_of_ne_dunk hd0
        by_cases hpp : p0.card.suit = powerSuit
        · rw [trickScore_of_power (by rw [heff0]; exact hpp)]; omega
        · rw [trickScore_of_led (by rw [heff0]; exact hpp)
            (by rw [heff0]; exact hlead.symm)]
          omega
    obtain ⟨hmem, hge, hall⟩ := trickFold_spec powerSuit ledSuit rest p0 hwf0
      (fun q hq => hwf q (by simp [hq])) hsc0
    set w := rest.foldl (trickStep powerSuit ledSuit) p0 with hw
    have hwmem : w ∈ p0 :: rest := by
      rcases hmem with h | h
      · rw [h]; exact List.mem_cons_self p0 rest
      · exact List.mem_cons_of_mem _ h
    have hwwf : wfCard w.card = true := hwf w hwmem
    obtain ⟨q, hq, hqd⟩ := hdunk
    have hqeff : effectiveSuit powerSuit q.card = powerSuit := by
      unfold effectiveSuit; rw [if_pos hqd]
    have hq2000 : 2000 ≤ trickScore powerSuit ledSuit q.card := by
      rw [trickScore_of_power hqeff]; omega
    have hallscore : ∀ r ∈ p0 :: rest,
        trickScore powerSuit ledSuit r.card ≤ trickScore powerSuit ledSuit w.card := by
      intro r hr
      rcases List.mem_cons.mp hr with h | h
      · exact h ▸ hge
      · exact hall r h
    exact ⟨w, hwmem, rfl,
      effSuit_of_score_ge_2000 hwwf (le_trans hq2000 (hallscore q hq))⟩
  · intro n h1 h14
    constructor
    · simp only [beats, createCard, effectiveSuit, effectiveValue2, CardValue.toNat,
        if_true, if_neg hps, if_pos rfl]
      simp only [Bool.or_eq_true, Bool.and_eq_true, decide_eq_true_eq]
      omega
    · simp only [beats, createCard, effectiveSuit, effectiveValue2, CardValue.toNat,
        if_true, if_neg hps, if_pos rfl]
      simp only [Bool.or_eq_true, Bool.and_eq_true, decide_eq_true_eq]
      omega

/-- A two-play trick led by the Dunk (so the caller passes `ledSuit = dunk`,
the first card's literal suit), answered by the power-suit 11. -/
def c9Trick : List Play :=
  [⟨"Ann", createCard .dunk .D⟩, ⟨"Bob", createCard .orange (.num 11)⟩]

/-- Counterexample for C9: the wild card's fixed value does NOT place it
above every ordinary rank of the power suit — the power-suit 11 wins the
trick over the led wild card (10.5 < 11). -/
theorem dunk_loses_to_power_eleven :
    determineTrickWinner c9Trick Suit.orange Suit.dunk = some "Bob" ∧ "Bob" ≠ "Ann" :=
  ⟨by decide, by decide⟩

/-- Witness for C9's amended theorem, at the concrete trick `c9Trick`
(power suit orange) and at the ordinary power rank 11. -/
theorem dunk_power_suit_spec_witness :
    (∃ w, w ∈ c9Trick ∧ determineTrickWinner c9Trick Suit.orange Suit.dunk = some w.player ∧
      effectiveSuit Suit.orange w.card = Suit.orange) ∧
    ((beats Suit.orange Suit.dunk (createCard Suit.dunk .D)
        (createCard Suit.orange (.num 11)) = true ↔ ((11 : Nat) = 1 ∨ 11 ≤ (11 : Nat))) ∧
      (beats Suit.orange Suit.dunk (createCard Suit.orange (.num 11))
        (createCard Suit.dunk .D) = true ↔ ((11 : Nat) ≠ 1 ∧ (11 : Nat) ≤ 10))) :=
  ⟨(dunk_power_suit_spec c9Trick Suit.orange Suit.dunk
      ⟨"Ann", createCard .dunk .D⟩ [⟨"Bob", createCard .orange (.num 11)⟩]
      rfl rfl (by decide) (by decide) (by decide)).1,
   (dunk_power_suit_spec c9Trick Suit.orange Suit.dunk
      ⟨"Ann", createCard .dunk .D⟩ [⟨"Bob", createCard .orange (.num 11)⟩]
      rfl rfl (by decide) (by decide) (by decide)).2 11 (by decide) (by decide)⟩

/-! ### Claim C2 -/

/-- The hand and trick on which the two follow-suit validators disagree:
the Dunk was led (power suit orange) and the hand holds an orange 5. -/
def c2Hand : List Card := [createCard .orange (.num 5), createCard .yellow (.num 3)]

/-- A trick so far consisting of the led Dunk. -/
def c2Played : List Play := [⟨"Patricia", createCard .dunk .D⟩]

/-- Claim C2 is refuted by the code: when the wild card is led, the AI-path
`getValidCards` remaps the led suit to the power suit and forces following
it (only the orange 5 is legal), while the human-path `isCardPlayValid`
keeps the literal led suit "dunk", finds no dunk-suited card in the hand,
and accepts any card — here the off-suit yellow 3. -/
theorem isCardPlayValid_wild_lead_divergence :
    isCardPlayValid (createCard .yellow (.num 3)) c2Played c2Hand Suit.orange = true ∧
    getValidCards c2Hand c2Played Suit.orange = [createCard .orange (.num 5)] ∧
    createCard .yellow (.num 3) ∉ getValidCards c2Hand c2Played Suit.orange ∧
    createCard .yellow (.num 3) ∈ c2Hand := by
  refine ⟨by decide, by decide, by decide, by decide⟩

/-! ### Claim C10 -/

/-- A trick of two deck cards of the power suit: orange 2 then orange 14. -/
def c10Trick : List Play :=
  [⟨"Patricia", createCard .orange (.num 2)⟩, ⟨"Alex", createCard .orange (.num 14)⟩]

/-- Claim C10 is refuted by the code: the engine awards the trick to the
orange 14 (Alex), but the heuristic's `getCurrentWinner` still reports the
orange 2 (Patricia) as holding it, because `CARD_RANKS` holds strings while
deck cards carry numeric values, so `indexOf` returns −1 for both cards and
the strict comparison never fires. -/
theorem getCurrentWinner_disagrees_with_engine :
    determineTrickWinner c10Trick Suit.orange Suit.orange = some "Alex" ∧
    (getCurrentWinner c10Trick Suit.orange).map Play.player = some "Patricia" ∧
    cardRankIndex (CardValue.num 2) = -1 ∧
    cardRankIndex (CardValue.num 14) = -1 := by
  refine ⟨by decide, by decide, by decide, by decide⟩

/-! ### Proof theory for the bidding engine -/

lemma isValidBid_eq_true_iff {a hb : Nat} :
    isValidBid a hb = true ↔ (hb < a ∧ a % 5 = 0 ∧ 70 ≤ a ∧ a ≤ 200) := by
  unfold isValidBid
  split_ifs <;> simp <;> omega

lemma applyBid_fields (s : BiddingState) (p : String) (a : Nat) :
    (applyBid s p a).highestBid = a ∧ (applyBid s p a).highestBidder = some p ∧
    (applyBid s p a).bids = s.bids ++ [(p, a)] ∧ (applyBid s p a).passes = s.passes ∧
    (applyBid s p a).isComplete = (if a = 200 then true else s.isComplete) ∧
    (applyBid s p a).winner = (if a = 200 then some p else s.winner) ∧
    (applyBid s p a).winningBid = (if a = 200 then a else s.winningBid) := by
  unfold applyBid
  split_ifs <;> simp

lemma passBid_fields (s : BiddingState) (p : String) :
    (passBid s p).passes = s.passes ++ [p] ∧ (passBid s p).bids = s.bids ∧
    (passBid s p).highestBid = s.highestBid ∧
    (passBid s p).highestBidder = s.highestBidder ∧
    (passBid s p).isComplete = (if 3 ≤ s.passes.length + 1 then true else s.isComplete) ∧
    (passBid s p).winner = (if 3 ≤ s.passes.length + 1 then s.highestBidder else s.winner) ∧
    (passBid s p).winningBid = (if 3 ≤ s.passes.length + 1 then s.highestBid else s.winningBid) := by
  unfold passBid
  simp only [List.length_append, List.length_cons, List.length_nil]
  split_ifs <;> simp_all

/-- Invariant of every reachable bidding state: the highest bid is a
multiple of 5 (0 initially, then always a validated bid), once any bid has
been recorded there is a highest bidder, and a completed auction with at
least one bid has a winner. -/
lemma reachable_invariant {s : BiddingState} (h : Reachable s) :
    5 ∣ s.highestBid ∧
    (s.bids ≠ [] → ∃ w, s.highestBidder = some w) ∧
    (s.isComplete = true → s.bids ≠ [] → ∃ w, s.winner = some w) := by
  induction h with
  | start n =>
    refine ⟨⟨0, rfl⟩, ?_, ?_⟩ <;> simp [startBiddingRound]
  | @bid s p a hr hc hcb hv ih =>
    obtain ⟨hdvd, hbidder, hwin⟩ := ih
    obtain ⟨hHB, hHBer, hBids, hPasses, hC, hW, hWB⟩ := applyBid_fields s p a
    have hfacts := isValidBid_eq_true_iff.mp hv
    refine ⟨?_, ?_, ?_⟩
    · rw [hHB]; omega
    · intro _; exact ⟨p, hHBer⟩
    · intro hcomp _
      rw [hC] at hcomp
      rw [hW]
      by_cases h200 : a = 200
      · rw [if_pos h200]; exact ⟨p, rfl⟩
      · rw [if_neg h200] at hcomp; rw [hcomp] at hc; cases hc
  | @pass s p hr hc hcb ih =>
    obtain ⟨hdvd, hbidder, hwin⟩ := ih
    obtain ⟨hPasses, hBids, hHB, hHBer, hC, hW, hWB⟩ := passBid_fields s p
    refine ⟨by rw [hHB]; exact hdvd, ?_, ?_⟩
    · intro hne; rw [hBids] at hne; rw [hHBer]; exact hbidder hne
    · intro hcomp hne
      rw [hC] at hcomp
      rw [hBids] at hne
      rw [hW]
      by_cases h3 : 3 ≤ s.passes.length + 1
      · rw [if_pos h3]; exact hbidder hne
      · rw [if_neg h3] at hcomp; rw [hcomp] at hc; cases hc

/-! ### Claim C3 -/

/-- Claim C3: on every (reachable) bidding state, `makeBid` raises
INVALID_BID exactly when the amount is not a multiple of 5, or is below
`highestBid + 5`, or falls outside [70, 200]; the validation runs before any
state is built, so on the error path no new state exists and the input state
is untouched; on success the returned state records the amount as highest
bid and the acting seat as highest bidder. -/
theorem makeBid_validation_spec (s : BiddingState) (p : String) (a : Nat)
    (hs : Reachable s) :
    ((∃ e, makeBid s p a = .error e) ↔
      ¬(a % 5 = 0 ∧ s.highestBid + 5 ≤ a ∧ 70 ≤ a ∧ a ≤ 200)) ∧
    (∀ s', makeBid s p a = .ok s' → s'.highestBid = a ∧ s'.highestBidder = some p) := by
  obtain ⟨⟨k, hk⟩, -, -⟩ := reachable_invariant hs
  constructor
  · unfold makeBid
    by_cases hv : isValidBid a s.highestBid = true
    · rw [if_pos hv]
      have hfacts := isValidBid_eq_true_iff.mp hv
      constructor
      · rintro ⟨e, he⟩; cases he
      · intro hneg
        exact absurd ⟨hfacts.2.1, by omega, hfacts.2.2.1, hfacts.2.2.2⟩ hneg
    · rw [if_neg hv]
      constructor
      · intro _ hcond
        exact hv (isValidBid_eq_true_iff.mpr ⟨by omega, hcond.1, hcond.2.2.1, hcond.2.2.2⟩)
      · intro _
        exact ⟨.INVALID_BID, rfl⟩
  · intro s' hok
    unfold makeBid at hok
    split_ifs at hok
    · obtain ⟨hHB, hHBer, -⟩ := applyBid_fields s p a
      cases hok
      exact ⟨hHB, hHBer⟩

/-- Witness for C3 at the freshly started round-1 auction: a bid of 70 by
the opening seat succeeds and installs amount and bidder. -/
theorem makeBid_validation_spec_witness :
    Reachable (startBiddingRound 1) ∧
    (∀ s', makeBid (startBiddingRound 1) "Patricia" 70 = .ok s' →
      s'.highestBid = 70 ∧ s'.highestBidder = some "Patricia") :=
  ⟨Reachable.start 1,
   (makeBid_validation_spec (startBiddingRound 1) "Patricia" 70 (Reachable.start 1)).2⟩

/-! ### Claim C4 -/

/-- Claim C4 (amended): on every reachable bidding state, a bid of 200 makes
the state terminal immediately with that bidder as winner and 200 as the
winning bid; a smaller accepted bid never terminates; a pass terminates the
auction exactly when it is the third pass ACTION recorded (the turn rotation
does not skip seats that already passed, so these need not be three distinct
seats), with the current highest bidder as winner; and every terminal
reachable state reached after at least one bid has a winner. -/
theorem bidding_termination_spec (s : BiddingState) (p : String) (a : Nat)
    (hs : Reachable s) :
    (∀ s', makeBid s p 200 = .ok s' →
      s'.isComplete = true ∧ s'.winner = some p ∧ s'.winningBid = 200) ∧
    (a ≠ 200 → s.isComplete = false → ∀ s', makeBid s p a = .ok s' → s'.isComplete = false) ∧
    (s.isComplete = false →
      ((passBid s p).isComplete = true ↔ 3 ≤ s.passes.length + 1)) ∧
    (s.isComplete = false → (passBid s p).isComplete = true →
      (passBid s p).winner = s.highestBidder) ∧
    (s.isComplete = true → s.bids ≠ [] → ∃ w, s.winner = some w) := by
  obtain ⟨-, -, hwin⟩ := reachable_invariant hs
  refine ⟨?_, ?_, ?_, ?_, hwin⟩
  · intro s' hok
    unfold makeBid at hok
    split_ifs at hok
    · obtain ⟨-, -, -, -, hC, hW, hWB⟩ := applyBid_fields s p 200
      cases hok
      simp only [if_pos rfl] at hC hW hWB
      exact ⟨hC, hW, hWB⟩
  · intro h200 hnc s' hok
    unfold makeBid at hok
    split_ifs at hok
    · obtain ⟨-, -, -, -, hC, -, -⟩ := applyBid_fields s p a
      cases hok
      rw [hC, if_neg h200]
      exact hnc
  · intro hnc
    obtain ⟨-, -, -, -, hC, -, -⟩ := passBid_fields s p
    rw [hC]
    by_cases h3 : 3 ≤ s.passes.length + 1
    · simp [h3]
    · simp [h3, hnc]
  · intro hnc hcomp
    obtain ⟨-, -, -, -, hC, hW, -⟩ := passBid_fields s p
    rw [hC] at hcomp
    by_cases h3 : 3 ≤ s.passes.length + 1
    · rw [hW, if_pos h3]
    · rw [if_neg h3] at hcomp; rw [hcomp] at hnc; cases hnc

/-- The concrete auction of the C4 counterexample, driven exactly as
`processNextBid` drives it (each actor is `getCurrentBidder`): Patricia
passes, Alex bids 70, Jordan passes, You bid 75, and Patricia — whose seat
comes up again because the rotation does not skip passed seats — passes a
second time. -/
def bidS0 : BiddingState := startBiddingRound 1

def bidS1 : BiddingState := passBid bidS0 "Patricia"

def bidS2 : BiddingState := applyBid bidS1 "Alex" 70

def bidS3 : BiddingState := passBid bidS2 "Jordan"

def bidS4 : BiddingState := applyBid bidS3 "You" 75

def bidS5 : BiddingState := passBid bidS4 "Patricia"

lemma reachable_bidS4 : Reachable bidS4 := by
  have h0 : Reachable bidS0 := Reachable.start 1
  have h1 : Reachable bidS1 := Reachable.pass h0 (by decide) (by decide)
  have h2 : Reachable bidS2 := @Reachable.bid bidS1 "Alex" 70 h1 (by decide) (by decide) (by decide)
  have h3 : Reachable bidS3 := Reachable.pass h2 (by decide) (by decide)
  exact @Reachable.bid bidS3 "You" 75 h3 (by decide) (by decide) (by decide)

lemma reachable_bidS5 : Reachable bidS5 :=
  Reachable.pass reachable_bidS4 (by decide) (by decide)

/-- Counterexample for C4: a reachable terminal state (no 200 bid was made)
in which only TWO distinct seats have passed — Patricia's pass counts twice
— yet the auction is complete; so "terminal exactly when three of the four
seats have passed" fails on the code. -/
theorem bidding_two_seat_termination :
    Reachable bidS5 ∧ bidS5.isComplete = true ∧ bidS5.winningBid = 75 ∧
    bidS5.passes = ["Patricia", "Jordan", "Patricia"] ∧
    bidS5.passes.dedup.length = 2 ∧ bidS5.winner = some "You" :=
  ⟨reachable_bidS5, by decide, by decide, by decide, by decide, by decide⟩

/-- Witness for C4's amended theorem at the reachable state `bidS4`: the
next pass is the third pass action and completes the auction with the
highest bidder as winner. -/
theorem bidding_termination_spec_witness :
    Reachable bidS4 ∧ bidS4.isComplete = false ∧
    ((passBid bidS4 "Patricia").isComplete = true ↔ 3 ≤ bidS4.passes.length + 1) ∧
    (passBid bidS4 "Patricia").winner = bidS4.highestBidder :=
  ⟨reachable_bidS4, by decide,
   (bidding_termination_spec bidS4 "Patricia" 90 reachable_bidS4).2.2.1 (by decide),
   (bidding_termination_spec bidS4 "Patricia" 90 reachable_bidS4).2.2.2.1 (by decide) (by decide)⟩

end Dunk

namespace Dunk

/-! ### Claim C5 -/

/-- Claim C5: end-of-round settlement credits the declaring (bidding) team
with its captured points when those reach the bid and with minus the bid
amount otherwise, and credits the non-declaring team with exactly its
captured points in all cases. -/
theorem calculateEndOfRoundScores_spec (bidWinner : String) (bid e1 e2 : Nat) :
    (isTeam1 bidWinner = true →
      (calculateEndOfRoundScores bidWinner bid e1 e2).1 =
        (if bid ≤ e1 then (e1 : Int) else -(bid : Int)) ∧
      (calculateEndOfRoundScores bidWinner bid e1 e2).2 = (e2 : Int)) ∧
    (isTeam1 bidWinner = false →
      (calculateEndOfRoundScores bidWinner bid e1 e2).2 =
        (if bid ≤ e2 then (e2 : Int) else -(bid : Int)) ∧
      (calculateEndOfRoundScores bidWinner bid e1 e2).1 = (e1 : Int)) := by
  constructor <;> intro h <;> simp [calculateEndOfRoundScores, h]

/-- Witness for C5: Alex (team 1) bid 120 but the team captured only 90, so
team 1 is set back by 120 while team 2 keeps its 110 captured points. -/
theorem calculateEndOfRoundScores_spec_witness :
    isTeam1 "Alex" = true ∧
    (calculateEndOfRoundScores "Alex" 120 90 110).1 = -120 ∧
    (calculateEndOfRoundScores "Alex" 120 90 110).2 = 110 := by
  have h := (calculateEndOfRoundScores_spec "Alex" 120 90 110).1 (by decide)
  refine ⟨by decide, ?_, ?_⟩
  · rw [h.1]; decide
  · rw [h.2]; decide

/-! ### Claim C6 -/

/-- Counterexample for C6: the total point value of the 57 deck cards is NOT
200 (it is 180; a round only reaches 200 together with the 20-point
final-trick bonus). -/
theorem deck_points_ne_200 : ¬ (createDeck.map Card.points).sum = 200 := by decide

/-- Claim C6 (amended): the deck has exactly 57 cards, `dealCards`
distributes all of them into four 13-card hands plus a 5-card kitty with
nothing left over, and the cards carry 180 points in total — together with
the fixed 20-point final-trick bonus this makes the 200 points a round
distributes. -/
theorem deck_and_deal_spec :
    createDeck.length = 57 ∧
    (createDeck.map Card.points).sum = 180 ∧
    (createDeck.map Card.points).sum + finalTrickBonus = 200 ∧
    ((dealCards createDeck).1.map List.length) = [13, 13, 13, 13] ∧
    (dealCards createDeck).2.1.length = 5 ∧
    (dealCards createDeck).2.2 = [] ∧
    ((((dealCards createDeck).1.flatten ++ (dealCards createDeck).2.1).map Card.points).sum = 180) := by
  refine ⟨by decide, by decide, by decide, by decide, by decide, by decide, by decide⟩

/-! ### Claim C7 -/

/-- Claim C7: the match-end check fires exactly when a cumulative team score
has reached the 500-point target; a single team over the target wins; if
both crossed, the higher total wins; and a tie in totals goes to the team
with the higher score delta in the just-completed round. -/
theorem checkForGameEnd_spec (t1 t2 : Int) (lr : RoundRecord) :
    ((checkForGameEnd t1 t2 lr).isSome ↔ (500 ≤ t1 ∨ 500 ≤ t2)) ∧
    (500 ≤ t1 → t2 < 500 → checkForGameEnd t1 t2 lr = some .team1) ∧
    (500 ≤ t2 → t1 < 500 → checkForGameEnd t1 t2 lr = some .team2) ∧
    (500 ≤ t1 → 500 ≤ t2 → t2 < t1 → checkForGameEnd t1 t2 lr = some .team1) ∧
    (500 ≤ t1 → 500 ≤ t2 → t1 < t2 → checkForGameEnd t1 t2 lr = some .team2) ∧
    (500 ≤ t1 → 500 ≤ t2 → t1 = t2 → lr.team2Final < lr.team1Final →
      checkForGameEnd t1 t2 lr = some .team1) ∧
    (500 ≤ t1 → 500 ≤ t2 → t1 = t2 → lr.team1Final < lr.team2Final →
      checkForGameEnd t1 t2 lr = some .team2) := by
  unfold checkForGameEnd WINNING_SCORE
  refine ⟨?_, ?_, ?_, ?_, ?_, ?_, ?_⟩ <;>
    · split_ifs <;> simp_all <;> omega

/-- Witness for C7: both teams hold 520 points, the totals are tied, and
team 1 had the higher delta (+30 vs −30) in the just-completed round, so
team 1 wins. -/
theorem checkForGameEnd_spec_witness :
    ((500 : Int) ≤ 520 ∧ (-30 : Int) < 30) ∧
    checkForGameEnd 520 520 ⟨30, -30⟩ = some Team.team1 :=
  ⟨⟨by decide, by decide⟩,
   (checkForGameEnd_spec 520 520 ⟨30, -30⟩).2.2.2.2.2.1 (by decide) (by decide) rfl (by decide)⟩

end Dunk

namespace Dunk

/-! ### Claim C8 -/

lemma insertByKeyDesc_perm (ps : Suit) (c : Card) (l : List Card) :
    (insertByKeyDesc ps c l).Perm (c :: l) := by
  induction l with
  | nil => exact List.Perm.refl _
  | cons d ds ih =>
    unfold insertByKeyDesc
    split_ifs
    · exact List.Perm.refl _
    · exact (List.Perm.cons d ih).trans (List.Perm.swap c d ds)

lemma sortByKeyDesc_perm (ps : Suit) (l : List Card) : (sortByKeyDesc ps l).Perm l := by
  induction l with
  | nil => exact List.Perm.refl _
  | cons c cs ih =>
    exact (insertByKeyDesc_perm ps c _).trans (List.Perm.cons c ih)

/-- The (suit, value) identity by which `handleHumanKitty` matches selected
cards against the combined pool. -/
def cardKey (c : Card) : Suit × CardValue := (c.suit, c.value)

lemma selectionMatches_iff {sel : List Card} {c : Card} :
    selectionMatches sel c = true ↔ ∃ s ∈ sel, cardKey s = cardKey c := by
  unfold selectionMatches cardKey
  simp only [List.any_eq_true, Bool.and_eq_true, decide_eq_true_eq, Prod.mk.injEq]

/-- Claim C8 (amended): with a 13-card hand and 5-card kitty, the human-path
exchange raises INVALID_KITTY_SELECTION exactly when the selection is not
exactly 5 cards — membership in the combined 18-card pool is NOT validated;
when the selection IS 5 distinct cards of the pool, the result is a 13-card
new hand and the 5-card selection as new kitty, together a permutation of
the original 18 cards; and the heuristic-path `manageKitty` always returns a
13-card hand and 5-card kitty partitioning the 18 cards. -/
theorem kitty_exchange_spec (hand kitty sel : List Card) (ps : Suit)
    (hh : hand.length = 13) (hk : kitty.length = 5) :
    ((∃ e, handleHumanKitty hand kitty sel ps = .error e) ↔ sel.length ≠ 5) ∧
    (((hand ++ kitty).map cardKey).Nodup → (sel.map cardKey).Nodup →
      sel.length = 5 → (∀ s ∈ sel, s ∈ hand ++ kitty) →
      ∃ nh, handleHumanKitty hand kitty sel ps = .ok (nh, sel, ps) ∧
        nh.length = 13 ∧ (nh ++ sel).Perm (hand ++ kitty)) ∧
    ((manageKitty hand kitty ps).1.length = 13 ∧
      (manageKitty hand kitty ps).2.length = 5 ∧
      ((manageKitty hand kitty ps).1 ++ (manageKitty hand kitty ps).2).Perm (hand ++ kitty)) := by
  refine ⟨?_, ?_, ?_⟩
  · unfold handleHumanKitty
    split_ifs with h5
    · exact iff_of_true ⟨.INVALID_KITTY_SELECTION, rfl⟩ h5
    · constructor
      · rintro ⟨e, he⟩
        simp at he
      · intro hne
        exact absurd hne h5
  · intro hnodup hselnodup h5 hsub
    have hcnd : (hand ++ kitty).Nodup := List.Nodup.of_map _ hnodup
    have hselnd : sel.Nodup := List.Nodup.of_map _ hselnodup
    have hinj := List.inj_on_of_nodup_map hnodup
    have hFnd : ((hand ++ kitty).filter (selectionMatches sel)).Nodup :=
      hcnd.filter _
    have hmemiff : ∀ c, c ∈ (hand ++ kitty).filter (selectionMatches sel) ↔ c ∈ sel := by
      intro c
      rw [List.mem_filter]
      constructor
      · rintro ⟨hcm, hmatch⟩
        obtain ⟨s, hs, hkey⟩ := selectionMatches_iff.mp hmatch
        exact (hinj (hsub s hs) hcm hkey) ▸ hs
      · intro hcs
        exact ⟨hsub c hcs, selectionMatches_iff.mpr ⟨c, hcs, rfl⟩⟩
    have hFperm : ((hand ++ kitty).filter (selectionMatches sel)).Perm sel :=
      (List.perm_ext_iff_of_nodup hFnd hselnd).mpr hmemiff
    have hsplit := List.filter_append_perm (fun c => selectionMatches sel c) (hand ++ kitty)
    have hperm : (((hand ++ kitty).filter fun c => !(selectionMatches sel c)) ++ sel).Perm
        (hand ++ kitty) :=
      ((List.Perm.append_left _ hFperm.symm).trans List.perm_append_comm).trans hsplit
    refine ⟨(hand ++ kitty).filter fun c => !(selectionMatches sel c), ?_, ?_, hperm⟩
    · unfold handleHumanKitty
      rw [if_neg (by omega)]
    · have hl := hperm.length_eq
      simp only [List.length_append, hh, hk, h5] at hl
      omega
  · have hperm : (sortByKeyDesc ps (hand ++ kitty)).Perm (hand ++ kitty) :=
      sortByKeyDesc_perm ps (hand ++ kitty)
    have hlen : (sortByKeyDesc ps (hand ++ kitty)).length = 18 := by
      rw [hperm.length_eq]
      simp [hh, hk]
    refine ⟨?_, ?_, ?_⟩
    · simp [manageKitty, List.length_take, hlen]
    · simp [manageKitty, List.length_drop, hlen]
    · simp only [manageKitty, List.take_append_drop]
      exact hperm

/-- The concrete kitty-exchange data of the C8 witness and counterexample:
a 13-card hand of orange and yellow cards and a 5-card all-blue kitty. -/
def w8Hand : List Card :=
  [createCard .orange (.num 1), createCard .orange (.num 2), createCard .orange (.num 3),
   createCard .orange (.num 4), createCard .orange (.num 5), createCard .orange (.num 6),
   createCard .orange (.num 7), createCard .orange (.num 8), createCard .orange (.num 9),
   createCard .orange (.num 10), createCard .yellow (.num 1), createCard .yellow (.num 2),
   createCard .yellow (.num 3)]

def w8Kitty : List Card :=
  [createCard .blue (.num 1), createCard .blue (.num 2), createCard .blue (.num 3),
   createCard .blue (.num 4), createCard .blue (.num 5)]

/-- A 5-card selection drawn from the combined pool. -/
def w8Sel : List Card :=
  [createCard .orange (.num 1), createCard .orange (.num 2), createCard .blue (.num 1),
   createCard .blue (.num 2), createCard .blue (.num 3)]

/-- A 5-card selection entirely OUTSIDE the combined pool. -/
def c8Sel : List Card :=
  [createCard .green (.num 1), createCard .green (.num 2), createCard .green (.num 3),
   createCard .green (.num 4), createCard .green (.num 5)]

/-- Counterexample for C8: a 5-card selection of cards that are NOT in the
combined pool raises no error at all — the exchange succeeds and returns all
18 pool cards as the "new hand", contradicting "raises exactly when the
selection is not 5 cards drawn from the combined pool" (and the 13-card
new-hand guarantee). -/
theorem handleHumanKitty_accepts_foreign_selection :
    handleHumanKitty w8Hand w8Kitty c8Sel Suit.orange =
      .ok (w8Hand ++ w8Kitty, c8Sel, Suit.orange) ∧
    (c8Sel.all fun s => decide (s ∉ w8Hand ++ w8Kitty)) = true ∧
    (w8Hand ++ w8Kitty).length = 18 :=
  ⟨by rfl, by decide, by decide⟩

/-- Witness for C8's amended theorem on concrete data: a legitimate 5-card
selection from the pool yields a 13-card hand and the 5-card kitty
partitioning the 18 cards. -/
theorem kitty_exchange_spec_witness :
    (w8Hand.length = 13 ∧ w8Kitty.length = 5 ∧ w8Sel.length = 5) ∧
    (∃ nh, handleHumanKitty w8Hand w8Kitty w8Sel Suit.orange = .ok (nh, w8Sel, Suit.orange) ∧
      nh.length = 13 ∧ (nh ++ w8Sel).Perm (w8Hand ++ w8Kitty)) :=
  ⟨⟨by decide, by decide, by decide⟩,
   (kitty_exchange_spec w8Hand w8Kitty w8Sel Suit.orange (by decide) (by decide)).2.1
     (by decide) (by decide) (by decide) (by decide)⟩

end Dunk
